import Mathlib

/-!
Shallow embedding of `words_token.py` (a text-analysis pipeline: line parsing,
tokenization, n-gram generation, frequency aggregation, keyword classification,
sentiment time series, and JSON export), together with theorems settling the
frozen claims about it.

External NLP capabilities (the NLTK word tokenizer and stop-word list, the spaCy
entity recognizer, the VADER sentiment scorer) are modelled as injected
functions, exactly as the specification treats them.  Sentiment scores are kept
as an opaque type parameter `α`: the pipeline only moves them around, never
computes with them.  Python `Counter` objects are modelled as insertion-ordered
association lists with pairwise-distinct keys maintained by the operations;
`Counter.most_common(n)` is a stable descending sort by count followed by
`take n`, which is the documented behaviour of `heapq.nlargest` (equivalent to
`sorted(items, key=count, reverse=True)[:n]`, a stable sort).
-/

namespace WordsToken

/-! ### Python string primitives used by the source -/

/-- Python `str.lower()`, character-wise (faithful on ASCII, which is all the
source's fixed keyword/phrase tables use). -/
def pyLower (s : String) : String := String.mk (s.toList.map Char.toLower)

/-- Python `str.isalpha()`: non-empty and every character alphabetic. -/
def pyIsAlpha (s : String) : Bool := !s.toList.isEmpty && s.toList.all Char.isAlpha

/-- Does `hay` start with `needle` (character lists)? -/
def startsW : List Char → List Char → Bool
  | [], _ => true
  | _ :: _, [] => false
  | a :: as, b :: bs => a == b && startsW as bs

/-- Substring test on character lists: some suffix of `hay` starts with `needle`. -/
def subAt (needle : List Char) : List Char → Bool
  | [] => startsW needle []
  | c :: t => startsW needle (c :: t) || subAt needle t

/-- Python's `needle in hay` substring containment test. -/
def pyIn (needle hay : String) : Bool := subAt needle.toList hay.toList

/-- Python `str.strip()`: drop leading and trailing whitespace. -/
def pyStrip (s : String) : String :=
  String.mk (((s.toList.dropWhile Char.isWhitespace).reverse.dropWhile Char.isWhitespace).reverse)

/-- Helper for Python `line.split("|", 1)`: split at the first `'|'`, if any. -/
def splitOnceAux : List Char → Option (List Char × List Char)
  | [] => none
  | c :: t =>
    if c = '|' then some ([], t)
    else (splitOnceAux t).map (fun p => (c :: p.1, p.2))

/-- Python `line.split("|", 1)` restricted to whether a `'|'` occurs: `none`
when the line has no `'|'` (where the source's 2-tuple unpacking raises
`ValueError`), otherwise the parts before and after the first `'|'`. -/
def pySplitOnce (s : String) : Option (String × String) :=
  (splitOnceAux s.toList).map (fun p => (String.mk p.1, String.mk p.2))

/-! ### `datetime.strptime` with the fixed pattern `"%Y-%m-%d %H:%M:%S"` -/

/-- A parsed timestamp (`datetime.datetime` restricted to the fields the fixed
format can produce; microseconds are always zero). -/
structure DateTime where
  year : Nat
  month : Nat
  day : Nat
  hour : Nat
  minute : Nat
  second : Nat
deriving DecidableEq

/-- Numeric value of a digit character. -/
def digitVal (c : Char) : Nat := c.toNat - 48

/-- Parse exactly four digits (the `%Y` directive). -/
def parse4 : List Char → Option (Nat × List Char)
  | a :: b :: c :: d :: rest =>
    if a.isDigit && b.isDigit && c.isDigit && d.isDigit then
      some (((digitVal a * 10 + digitVal b) * 10 + digitVal c) * 10 + digitVal d, rest)
    else none
  | _ => none

/-- Parse a one- or two-digit field the way CPython's `_strptime` regexes for
`%m`/`%d`/`%H`/`%M`/`%S` do: a two-digit match is taken when the two leading
characters are digits whose value satisfies `v2`, otherwise a single digit
satisfying `v1` is taken.  (For this fixed format the character after the
field is never a digit, so this greedy choice coincides with the regex's
backtracking behaviour.) -/
def parse2or1 (v2 v1 : Nat → Bool) : List Char → Option (Nat × List Char)
  | c1 :: c2 :: rest =>
    if c1.isDigit && c2.isDigit && v2 (digitVal c1 * 10 + digitVal c2) then
      some (digitVal c1 * 10 + digitVal c2, rest)
    else if c1.isDigit && v1 (digitVal c1) then some (digitVal c1, c2 :: rest)
    else none
  | [c1] => if c1.isDigit && v1 (digitVal c1) then some (digitVal c1, []) else none
  | [] => none

/-- Parse one literal character. -/
def parseCh (c : Char) : List Char → Option (List Char)
  | [] => none
  | x :: t => if x = c then some t else none

/-- A literal blank in a `strptime` format matches one or more whitespace
characters (`\s+`). -/
def parseWs : List Char → Option (List Char)
  | [] => none
  | c :: t => if c.isWhitespace then some (t.dropWhile Char.isWhitespace) else none

/-- Gregorian leap-year test, as in `datetime`. -/
def isLeap (y : Nat) : Bool := y % 4 == 0 && (y % 100 != 0 || y % 400 == 0)

/-- Days in a month, as validated by the `datetime.datetime` constructor. -/
def daysInMonth (y m : Nat) : Nat :=
  if m = 2 then (if isLeap y then 29 else 28)
  else if m = 4 || m = 6 || m = 9 || m = 11 then 30
  else 31

/-- CPython `datetime.datetime.strptime(s, "%Y-%m-%d %H:%M:%S")`: the
`_strptime` regex for each directive, literal `-`/`:` characters, `\s+` for
the blank, a full match required, then the `datetime` constructor's range
validation (year at least 1, day within the month). -/
def strptime (s : String) : Option DateTime := do
  let cs := s.toList
  let (y, cs) ← parse4 cs
  let cs ← parseCh '-' cs
  let (mo, cs) ← parse2or1 (fun v => 1 ≤ v && v ≤ 12) (fun v => 1 ≤ v) cs
  let cs ← parseCh '-' cs
  let (d, cs) ← parse2or1 (fun v => 1 ≤ v && v ≤ 31) (fun v => 1 ≤ v) cs
  let cs ← parseWs cs
  let (h, cs) ← parse2or1 (fun v => v ≤ 23) (fun _ => true) cs
  let cs ← parseCh ':' cs
  let (mi, cs) ← parse2or1 (fun v => v ≤ 59) (fun _ => true) cs
  let cs ← parseCh ':' cs
  let (se, cs) ← parse2or1 (fun v => v ≤ 59) (fun _ => true) cs
  if cs.isEmpty && 1 ≤ y && d ≤ daysInMonth y mo then
    some ⟨y, mo, d, h, mi, se⟩
  else none

/-- Left-pad the decimal rendering of `n` with zeros to width `w`. -/
def padNum (w n : Nat) : String :=
  let s := toString n
  String.mk (List.replicate (w - s.length) '0') ++ s

/-- Python `datetime.isoformat()` for a `strptime`-produced value:
`YYYY-MM-DDTHH:MM:SS`. -/
def DateTime.toIso (t : DateTime) : String :=
  padNum 4 t.year ++ "-" ++ padNum 2 t.month ++ "-" ++ padNum 2 t.day ++ "T" ++
    padNum 2 t.hour ++ ":" ++ padNum 2 t.minute ++ ":" ++ padNum 2 t.second

/-! ### `parse_line` -/

/-- Source `parse_line`: split on the first `|`; the left part (stripped) must
parse as a `%Y-%m-%d %H:%M:%S` timestamp, in which case the right part is
stripped and returned as the text.  A missing `|` (the tuple unpacking raises
`ValueError`) or a failed `strptime` (also `ValueError`) both fall back to
`(None, line.strip())`. -/
def parse_line (line : String) : Option DateTime × String :=
  match pySplitOnce line with
  | some (l, r) =>
    match strptime (pyStrip l) with
    | some ts => (some ts, pyStrip r)
    | none => (none, pyStrip line)
  | none => (none, pyStrip line)

/-! ### `collections.Counter`, as an insertion-ordered association list -/

/-- Python `counter[k]` (with the implicit default of `0`). -/
def getCount {K : Type} [DecidableEq K] : List (K × Nat) → K → Nat
  | [], _ => 0
  | e :: rest, k => if e.1 = k then e.2 else getCount rest k

/-- The single-key step of `Counter.update`: `self[k] = self.get(k, 0) + v`.
An absent key is appended at the end, preserving Python-dict insertion order. -/
def bumpBy {K : Type} [DecidableEq K] (l : List (K × Nat)) (k : K) (v : Nat) :
    List (K × Nat) :=
  match l with
  | [] => [(k, v)]
  | e :: rest => if e.1 = k then (e.1, e.2 + v) :: rest else e :: bumpBy rest k v

/-- `Counter.update(iterable)`: add 1 for each element, in iteration order. -/
def counterUpdate {K : Type} [DecidableEq K] (l : List (K × Nat)) (batch : List K) :
    List (K × Nat) :=
  batch.foldl (fun acc x => bumpBy acc x 1) l

/-- `Counter.update(mapping)`: add the mapping's count for each of its keys, in
its insertion order. -/
def counterMerge {K : Type} [DecidableEq K] (l other : List (K × Nat)) :
    List (K × Nat) :=
  other.foldl (fun acc e => bumpBy acc e.1 e.2) l

/-! ### `tokenize_and_clean`, `categorize_issues`, `generate_ngrams` -/

/-- Source `tokenize_and_clean`, with the external `word_tokenize` capability
injected as `tok`: lower-case, tokenize, keep tokens that are not stop words
and are purely alphabetic. -/
def tokenize_and_clean (tok : String → List String) (text : String)
    (stop_words : List String) : List String :=
  (tok (pyLower text)).filter (fun w => !stop_words.contains w && pyIsAlpha w)

/-- Source `categorize_issues`: one fresh `Counter`; for each configured
category (in insertion order), if any of its keywords occurs in the text as a
(case-sensitive) substring, `update([category])` adds exactly 1. -/
def categorize_issues (text : String) (issue_keywords : List (String × List String)) :
    List (String × Nat) :=
  issue_keywords.foldl
    (fun c e => if e.2.any (fun kw => pyIn kw text) then counterUpdate c [e.1] else c) []

/-- A Python iterator as returned by `zip(...)`: single-use; draining it leaves
it exhausted. -/
structure ZipIter (β : Type) where
  elems : List β

/-- Fully iterate a `ZipIter` (what `Counter.update` or `list(...)` does): the
remaining elements are produced and the iterator is left exhausted. -/
def ZipIter.drain {β : Type} (it : ZipIter β) : List β × ZipIter β := (it.elems, ⟨[]⟩)

/-- Python `zip(*lists)` on token lists: tuples of the components at index
`j`, for `j` below the length of the shortest list; `zip()` of no lists is
empty. -/
def pyZip (ls : List (List String)) : List (List String) :=
  match ls with
  | [] => []
  | l :: rest =>
    (List.range (rest.foldl (fun a t => min a t.length) l.length)).map
      (fun j => (l :: rest).map (fun t => t.getD j ""))

/-- Source `generate_ngrams`: `zip(*[words[i:] for i in range(n)])` — a
single-use `zip` iterator over the sliding windows. -/
def generate_ngrams (words : List String) (n : Nat) : ZipIter (List String) :=
  ⟨pyZip ((List.range n).map (fun i => words.drop i))⟩

/-! ### `analyze_text` -/

/-- The injected NLP capabilities of `analyze_text`: the NLTK tokenizer and
English stop-word list, the spaCy pipeline reduced to the entity texts it
returns, and the VADER compound score (of opaque type `α`). -/
structure Caps (α : Type) where
  tokenize : String → List String
  stop_words : List String
  entities : String → List String
  score : String → α

/-- The fixed resolution phrase list of `analyze_text`. -/
def resolution_phrases : List String :=
  ["resolved", "will get back to you", "solution", "fixed"]

/-- The fixed issue keyword configuration of `analyze_text`, in dict insertion
order. -/
def issue_keywords : List (String × List String) :=
  [("billing", ["invoice", "billing", "charge", "payment"]),
   ("technical", ["error", "problem", "bug", "issue"]),
   ("support", ["help", "support", "service", "assistance"])]

/-- The keyword list configured for a category name (empty for a name not in
the configuration). -/
def keywordsOf (cat : String) : List String :=
  match issue_keywords.find? (fun e => e.1 == cat) with
  | some e => e.2
  | none => []

/-- The seven collections `analyze_text` accumulates and returns. -/
structure AnalysisResult (α : Type) where
  word_freq : List (String × Nat)
  ngram_freq : List (List String × Nat)
  entity_freq : List (String × Nat)
  question_freq : List (String × Nat)
  sentiment_time_series : List (String × α)
  resolutions : List (String × Nat)
  issue_categories : List (String × Nat)

/-- The text component `parse_line` yields for a raw line. -/
def lineText (line : String) : String := (parse_line line).2

/-- The cleaned token list for a raw line. -/
def lineWords {α : Type} (caps : Caps α) (line : String) : List String :=
  tokenize_and_clean caps.tokenize (lineText line) caps.stop_words

/-- The n-gram occurrences one line contributes: the windows obtained by
draining the `generate_ngrams` iterator once. -/
def lineNgrams {α : Type} (caps : Caps α) (n : Nat) (line : String) :
    List (List String) :=
  ((generate_ngrams (lineWords caps line) n).drain).1

/-- Does a line's text contain one of the resolution phrases? -/
def resolutionHit (line : String) : Bool :=
  resolution_phrases.any (fun p => pyIn p (lineText line))

/-- The sentiment-series entry a line contributes: present exactly when a
timestamp was parsed, pairing the ISO-8601 rendering with the line text's
compound score. -/
def seriesEntry {α : Type} (caps : Caps α) (line : String) : Option (String × α) :=
  match (parse_line line).1 with
  | some ts => some (ts.toIso, caps.score (lineText line))
  | none => none

/-- One iteration of the `for line in file` loop of `analyze_text`. -/
def processLine {α : Type} (caps : Caps α) (ngram_size : Nat)
    (st : AnalysisResult α) (line : String) : AnalysisResult α :=
  { word_freq := counterUpdate st.word_freq (lineWords caps line)
    ngram_freq := counterUpdate st.ngram_freq (lineNgrams caps ngram_size line)
    entity_freq := counterUpdate st.entity_freq (caps.entities (lineText line))
    question_freq := counterUpdate st.question_freq
      (if pyIn "?" (lineText line) then [lineText line] else [])
    sentiment_time_series := st.sentiment_time_series ++ (seriesEntry caps line).toList
    resolutions :=
      if resolutionHit line then counterUpdate st.resolutions [lineText line]
      else st.resolutions
    issue_categories :=
      counterMerge st.issue_categories (categorize_issues (lineText line) issue_keywords) }

/-- The empty collections `analyze_text` starts from. -/
def initResult (α : Type) : AnalysisResult α := ⟨[], [], [], [], [], [], []⟩

/-- The whole `for line in file` loop. -/
def analyzeLines {α : Type} (caps : Caps α) (ngram_size : Nat)
    (lines : List String) : AnalysisResult α :=
  lines.foldl (processLine caps ngram_size) (initResult α)

/-- The ways `open(file_path, "r")` can fail that matter here: the path is
missing (`FileNotFoundError`) or it exists but is unreadable
(`PermissionError`). -/
inductive OpenErr
  | fileNotFound
  | permissionDenied
deriving DecidableEq

/-- Source `analyze_text`, with the outcome of `open` made explicit: the `try`
block catches exactly `FileNotFoundError` (printing a message and returning
`None`, modelled as `.ok none`); any other exception propagates to the caller
(modelled as `.error`); on success the seven collections are returned. -/
def analyze_text {α : Type} (caps : Caps α)
    (file : Except OpenErr (List String)) (ngram_size : Nat) :
    Except OpenErr (Option (AnalysisResult α)) :=
  match file with
  | .error .fileNotFound => .ok none
  | .error e => .error e
  | .ok lines => .ok (some (analyzeLines caps ngram_size lines))

/-! ### `save_to_json` -/

/-- The comparison `most_common` sorts by: higher count first. -/
def byCount {K : Type} (e f : K × Nat) : Prop := f.2 ≤ e.2

instance {K : Type} : DecidableRel (byCount (K := K)) :=
  fun e f => inferInstanceAs (Decidable (f.2 ≤ e.2))

instance {K : Type} : IsTotal (K × Nat) byCount := ⟨fun a b => Nat.le_total b.2 a.2⟩

instance {K : Type} : IsTrans (K × Nat) byCount := ⟨fun _ _ _ h1 h2 => Nat.le_trans h2 h1⟩

/-- `Counter.most_common(n)`: `heapq.nlargest(n, items, key=count)`, which is
documented as `sorted(items, key=count, reverse=True)[:n]` — a stable
descending sort by count, truncated to `n` entries. -/
def mostCommon {K : Type} [DecidableEq K] (l : List (K × Nat)) (n : Nat) :
    List (K × Nat) :=
  (List.insertionSort byCount l).take n

/-- One step of building a Python dict from key/value pairs: an existing key
keeps its position and takes the new value, a new key is appended. -/
def dictInsert {K V : Type} [DecidableEq K] : List (K × V) → K → V → List (K × V)
  | [], k, v => [(k, v)]
  | e :: rest, k, v =>
    if e.1 = k then (e.1, v) :: rest else e :: dictInsert rest k v

/-- Python `dict(pairs)` / a dict comprehension over `pairs`. -/
def pyDict {K V : Type} [DecidableEq K] (pairs : List (K × V)) : List (K × V) :=
  pairs.foldl (fun acc e => dictInsert acc e.1 e.2) []

/-- Source `ngram_to_string`: `'_'.join(ngram)`. -/
def ngram_to_string (g : List String) : String := String.intercalate "_" g

/-- The `limited_data` dict built by `save_to_json`, field order as in the
source.  Mappings are kept as ordered key/value lists, matching Python dicts. -/
structure LimitedData (α : Type) where
  word_freq : List (String × Nat)
  ngram_freq : List (String × Nat)
  entity_freq : List (String × Nat)
  question_freq : List (String × Nat)
  sentiment_time_series : List (String × α)
  resolutions : List (String × Nat)
  issue_categories : List (String × Nat)

/-- The pure part of `save_to_json`: build `limited_data` from the analysis
tuple and the results-to-save count. -/
def limitedData {α : Type} (data : AnalysisResult α) (save_n : Nat) : LimitedData α :=
  { word_freq := pyDict (mostCommon data.word_freq save_n)
    ngram_freq := pyDict ((mostCommon data.ngram_freq save_n).map
      (fun e => (ngram_to_string e.1, e.2)))
    entity_freq := pyDict (mostCommon data.entity_freq save_n)
    question_freq := pyDict (mostCommon data.question_freq save_n)
    sentiment_time_series := data.sentiment_time_series.take save_n
    resolutions := pyDict (mostCommon data.resolutions save_n)
    issue_categories := pyDict data.issue_categories }

/-- POSIX `os.path.dirname`: everything up to the last `/` (empty if none),
with trailing slashes stripped unless the head is all slashes. -/
def pyDirname (p : String) : String :=
  let cs := p.toList
  let head := (cs.reverse.dropWhile (fun c => c ≠ '/')).reverse
  if head.isEmpty || head.all (fun c => c = '/') then String.mk head
  else String.mk (head.reverse.dropWhile (fun c => c = '/')).reverse

/-! ### The incremental JSON writer

`json.dump(limited_data, f, ensure_ascii=False, indent=4)` with a non-`None`
indent uses the pure-Python `iterencode` generator (the one-shot C encoder is
only used when `indent is None`), so the document reaches `f.write` as a
stream of small chunks.  The definitions below reproduce that chunk stream:
dicts yield `{`, the newline+indent, each encoded key, `": "`, the value
chunks and separators individually; lists merge the pending separator into a
scalar element's chunk; an empty container is the single chunk `{}` or `[]`. -/

/-- Lowercase hexadecimal digit. -/
def hexDig (n : Nat) : Char := if n < 10 then Char.ofNat (48 + n) else Char.ofNat (87 + n)

/-- Escape one character as `py_encode_basestring` does (`ensure_ascii=False`:
only `"`, `\` and control characters are escaped). -/
def escChar (c : Char) : List Char :=
  if c = '"' then ['\\', '"']
  else if c = '\\' then ['\\', '\\']
  else if c = '\n' then ['\\', 'n']
  else if c = '\r' then ['\\', 'r']
  else if c = '\t' then ['\\', 't']
  else if c.toNat = 8 then ['\\', 'b']
  else if c.toNat = 12 then ['\\', 'f']
  else if c.toNat < 32 then ['\\', 'u', '0', '0', hexDig (c.toNat / 16), hexDig (c.toNat % 16)]
  else [c]

/-- JSON string literal for `s`. -/
def encStr (s : String) : String :=
  String.mk ('"' :: (s.toList.map escChar).flatten ++ ['"'])

/-- An indent of `n` spaces. -/
def pad (n : Nat) : String := String.mk (List.replicate n ' ')

/-- Chunk stream of a JSON object whose values' chunk streams are given, at
nesting level `lvl` (indent 4). -/
def spliceDict (items : List (String × List String)) (lvl : Nat) : List String :=
  match items with
  | [] => ["\x7b\x7d"]
  | f :: rest =>
    "\x7b" :: ("\n" ++ pad (4 * (lvl + 1))) :: encStr f.1 :: ": " :: f.2
      ++ rest.flatMap (fun e => (",\n" ++ pad (4 * (lvl + 1))) :: encStr e.1 :: ": " :: e.2)
      ++ ["\n" ++ pad (4 * lvl), "\x7d"]

/-- Chunk stream of a dict with integer values at level `lvl`. -/
def dictChunks (items : List (String × Nat)) (lvl : Nat) : List String :=
  spliceDict (items.map (fun e => (e.1, [toString e.2]))) lvl

/-- Chunk stream of one `(timestamp, score)` tuple, serialized as a two-element
array at level `lvl`; in a list context scalar elements are merged with the
pending separator chunk, as `_iterencode_list` does. -/
def pairChunks {α : Type} (render : α → String) (e : String × α) (lvl : Nat) :
    List String :=
  [ "[" ++ "\n" ++ pad (4 * (lvl + 1)) ++ encStr e.1,
    ",\n" ++ pad (4 * (lvl + 1)) ++ render e.2,
    "\n" ++ pad (4 * lvl), "]" ]

/-- Chunk stream of the sentiment series array at level `lvl`. -/
def listChunks {α : Type} (render : α → String) (items : List (String × α))
    (lvl : Nat) : List String :=
  match items with
  | [] => ["[]"]
  | f :: rest =>
    ("[" ++ "\n" ++ pad (4 * (lvl + 1))) :: pairChunks render f (lvl + 1)
      ++ rest.flatMap (fun e => (",\n" ++ pad (4 * (lvl + 1))) :: pairChunks render e (lvl + 1))
      ++ ["\n" ++ pad (4 * lvl), "]"]

/-- The chunk stream `json.dump` feeds to `f.write` for `limited_data`
(`render` is the decimal rendering of a compound score, which the pipeline
never inspects). -/
def jsonChunks {α : Type} (render : α → String) (d : LimitedData α) : List String :=
  spliceDict
    [("word_freq", dictChunks d.word_freq 1),
     ("ngram_freq", dictChunks d.ngram_freq 1),
     ("entity_freq", dictChunks d.entity_freq 1),
     ("question_freq", dictChunks d.question_freq 1),
     ("sentiment_time_series", listChunks render d.sentiment_time_series 1),
     ("resolutions", dictChunks d.resolutions 1),
     ("issue_categories", dictChunks d.issue_categories 1)] 0

/-- Delimiter-balance check over a JSON text (string literals and escapes
respected): a necessary condition for being a complete JSON document.  State:
open-delimiter depth, inside-string flag, pending-escape flag. -/
def balAux : List Char → Nat → Bool → Bool → Bool
  | [], depth, inStr, _ => depth == 0 && !inStr
  | c :: t, depth, inStr, esc =>
    if inStr then
      if esc then balAux t depth true false
      else if c = '\\' then balAux t depth true true
      else if c = '"' then balAux t depth false false
      else balAux t depth true false
    else if c = '"' then balAux t depth true false
    else if c = Char.ofNat 123 || c = '[' then balAux t (depth + 1) false false
    else if c = Char.ofNat 125 || c = ']' then
      decide (depth ≠ 0) && balAux t (depth - 1) false false
    else balAux t depth false false

/-- Is `s` delimiter-balanced (a necessary condition for parsing as JSON)? -/
def jsonBalanced (s : String) : Bool := balAux s.toList 0 false false

/-- Observable outcome of one `save_to_json` run: whether it completed without
raising, and the content left at the output path (`none`: the file was never
created or touched). -/
structure SaveOutcome where
  ok : Bool
  fileContent : Option String
deriving DecidableEq

/-- Source `save_to_json`, on a writable filesystem, with the possibility of
an I/O failure during the write made explicit: `failAfter = some k` means the
`k`-th `f.write` call raises (so exactly the first `k` chunks reach the file,
which `open(..., "w")` had already truncated).  Before writing,
`os.makedirs(os.path.dirname(output_file), exist_ok=True)` runs; CPython's
`os.makedirs("")` raises `FileNotFoundError` (ENOENT), so an output path with
no directory component fails before the file is even created. -/
def save_to_json {α : Type} (render : α → String) (data : AnalysisResult α)
    (output_file : String) (save_n : Nat) (failAfter : Option Nat) : SaveOutcome :=
  let chunks := jsonChunks render (limitedData data save_n)
  if pyDirname output_file = "" then ⟨false, none⟩
  else
    match failAfter with
    | none => ⟨true, some (String.join chunks)⟩
    | some k =>
      if chunks.length ≤ k then ⟨true, some (String.join chunks)⟩
      else ⟨false, some (String.join (chunks.take k))⟩

/-! ### Definitions used only to state the claims -/

/-- Total count a key receives from a batch of key/count pairs (what
`Counter.update(mapping)` adds for that key). -/
def sumCounts {K : Type} [DecidableEq K] (pairs : List (K × Nat)) (k : K) : Nat :=
  (pairs.map (fun e => if e.1 = k then e.2 else 0)).sum

/-- Does `text` contain any keyword configured for category `cat`? -/
def catHit (cat text : String) : Bool :=
  (keywordsOf cat).any (fun kw => pyIn kw text)

/-- Specification-side characterization of the export truncation contract,
written from the claim's words: `out` consists of exactly
`min n (number of entries)` entries, in non-increasing count order; it is an
initial segment of some arrangement of all the entries in which every kept
entry's count is at least every dropped entry's count; and for every count
value, the entries carrying that count appear (across kept-then-dropped) in
exactly their original first-seen order, so ties are broken stably by
insertion order. -/
def TopKSpec {K : Type} (entries out : List (K × Nat)) (n : Nat) : Prop :=
  out.length = min n entries.length ∧
  out.Pairwise (fun e f => f.2 ≤ e.2) ∧
  ∃ rest, entries.Perm (out ++ rest) ∧
    (∀ e, e ∈ out → ∀ f, f ∈ rest → f.2 ≤ e.2) ∧
    (∀ v, (out ++ rest).filter (fun e => e.2 == v) = entries.filter (fun e => e.2 == v))

/-! ### Concrete fixtures used by witnesses and counterexamples -/

/-- A concrete capability instance (the pipeline treats the injected NLP
capabilities and the score type opaquely, so any instance exercises it). -/
def capsW : Caps Int :=
  { tokenize := fun s => [s]
    stop_words := ["the"]
    entities := fun s => [s]
    score := fun _ => 0 }

/-- Concrete input lines: one with a parseable timestamp, one without. -/
def linesW : List String :=
  ["2024-01-01 10:00:00 | billing issue?", "no timestamp help"]

/-- A concrete analysis result with ties and distinct keys in its tables. -/
def dataW : AnalysisResult Int :=
  { word_freq := [("a", 2), ("b", 1)]
    ngram_freq := [(["a", "b"], 2), (["b", "c"], 1)]
    entity_freq := [("X", 1)]
    question_freq := [("q?", 1)]
    sentiment_time_series := [("2024-01-01T10:00:00", 1)]
    resolutions := [("fixed", 1)]
    issue_categories := [("billing", 2), ("support", 1)] }

/-! ## Counter lemmas -/

theorem getCount_bumpBy {K : Type} [DecidableEq K] (l : List (K × Nat)) (k : K)
    (v : Nat) (k' : K) :
    getCount (bumpBy l k v) k' = getCount l k' + if k = k' then v else 0 := by
  induction l with
  | nil => simp [bumpBy, getCount]
  | cons e rest ih =>
    by_cases hek : e.1 = k
    · by_cases hek' : e.1 = k'
      · subst hek; subst hek'
        simp [bumpBy, getCount]
      · have h1 : ¬ k = k' := fun h => hek' (by rw [hek, h])
        have h2 : ¬ k' = k := fun h => h1 h.symm
        simp [bumpBy, getCount, hek, hek', h1, h2]
    · by_cases hek' : e.1 = k'
      · have h1 : ¬ k = k' := fun h => hek (by rw [h, ← hek'])
        have h2 : ¬ k' = k := fun h => h1 h.symm
        simp [bumpBy, getCount, hek, hek', h1, h2]
      · simp [bumpBy, getCount, hek, hek', ih]

theorem getCount_counterUpdate {K : Type} [DecidableEq K] (l : List (K × Nat))
    (batch : List K) (k : K) :
    getCount (counterUpdate l batch) k
      = getCount l k + batch.countP (fun x => decide (x = k)) := by
  induction batch generalizing l with
  | nil => simp [counterUpdate]
  | cons x xs ih =>
    have step : counterUpdate l (x :: xs) = counterUpdate (bumpBy l x 1) xs := rfl
    rw [step, ih, getCount_bumpBy, List.countP_cons]
    by_cases hx : x = k
    · simp [hx]; omega
    · simp [hx]

theorem count_eq_countP_deq {β : Type} [DecidableEq β] [BEq β] [LawfulBEq β]
    (b : β) (l : List β) :
    List.count b l = l.countP (fun x => decide (x = b)) := by
  induction l with
  | nil => rfl
  | cons x xs ih =>
    rw [List.count_cons, List.countP_cons, ih]
    by_cases hx : x = b
    · simp [hx]
    · simp [hx, beq_false_of_ne hx]

theorem getCount_counterMerge {K : Type} [DecidableEq K] (l other : List (K × Nat))
    (k : K) :
    getCount (counterMerge l other) k = getCount l k + sumCounts other k := by
  induction other generalizing l with
  | nil => simp [counterMerge, sumCounts]
  | cons e rest ih =>
    have step : counterMerge l (e :: rest) = counterMerge (bumpBy l e.1 e.2) rest := rfl
    rw [step, ih, getCount_bumpBy]
    by_cases he : e.1 = k
    · simp [sumCounts, he]; omega
    · simp [sumCounts, he]

theorem getCount_counterUpdate_nil {K : Type} [DecidableEq K] (l : List (K × Nat)) :
    counterUpdate l [] = l := rfl

/-! ## The per-line classifier -/

theorem categorize_issues_closed (text : String) :
    categorize_issues text issue_keywords =
      (if catHit "billing" text then [("billing", 1)] else []) ++
      (if catHit "technical" text then [("technical", 1)] else []) ++
      (if catHit "support" text then [("support", 1)] else []) := by
  have hb : catHit "billing" text
      = (["invoice", "billing", "charge", "payment"].any (fun kw => pyIn kw text)) := rfl
  have ht : catHit "technical" text
      = (["error", "problem", "bug", "issue"].any (fun kw => pyIn kw text)) := rfl
  have hs : catHit "support" text
      = (["help", "support", "service", "assistance"].any (fun kw => pyIn kw text)) := rfl
  by_cases b : catHit "billing" text <;> by_cases t : catHit "technical" text <;>
    by_cases s : catHit "support" text <;>
    simp only [categorize_issues, issue_keywords, List.foldl, hb.symm, ht.symm, hs.symm,
      b, t, s, if_true, if_false, Bool.false_eq_true] <;> rfl

theorem getCount_categorize (text : String) :
    (getCount (categorize_issues text issue_keywords) "billing"
        = if catHit "billing" text then 1 else 0) ∧
    (getCount (categorize_issues text issue_keywords) "technical"
        = if catHit "technical" text then 1 else 0) ∧
    (getCount (categorize_issues text issue_keywords) "support"
        = if catHit "support" text then 1 else 0) := by
  rw [categorize_issues_closed]
  by_cases b : catHit "billing" text <;> by_cases t : catHit "technical" text <;>
    by_cases s : catHit "support" text <;> simp [b, t, s, getCount]

theorem sumCounts_zero_of_notMem {K : Type} [DecidableEq K] (l : List (K × Nat))
    (k : K) (h : ¬ k ∈ l.map Prod.fst) : sumCounts l k = 0 := by
  induction l with
  | nil => rfl
  | cons e rest ih =>
    have h1 : ¬ e.1 = k := by
      intro hh; exact h (by simp [hh])
    have h2 : ¬ k ∈ rest.map Prod.fst := by
      intro hm; exact h (by simp [hm])
    have h3 := ih h2
    simp [sumCounts, h1] at h3 ⊢
    exact h3

theorem sumCounts_eq_getCount_of_nodup {K : Type} [DecidableEq K]
    (l : List (K × Nat)) (h : (l.map Prod.fst).Nodup) (k : K) :
    sumCounts l k = getCount l k := by
  induction l with
  | nil => rfl
  | cons e rest ih =>
    simp only [List.map_cons, List.nodup_cons] at h
    by_cases he : e.1 = k
    · have : sumCounts rest k = 0 :=
        sumCounts_zero_of_notMem rest k (he ▸ h.1)
      simp [sumCounts, getCount, he] at this ⊢
      exact this
    · simp [sumCounts, getCount, he]
      exact ih h.2

theorem categorize_keys_nodup (text : String) :
    ((categorize_issues text issue_keywords).map Prod.fst).Nodup := by
  rw [categorize_issues_closed]
  by_cases b : catHit "billing" text <;> by_cases t : catHit "technical" text <;>
    by_cases s : catHit "support" text <;> simp [b, t, s]

theorem sumCounts_categorize (text : String) (c : String) :
    sumCounts (categorize_issues text issue_keywords) c
      = getCount (categorize_issues text issue_keywords) c :=
  sumCounts_eq_getCount_of_nodup _ (categorize_keys_nodup text) c

/-! ## Characterizations of the analysis loop, one component at a time -/

theorem loop_word {α : Type} (caps : Caps α) (n : Nat) (w : String) :
    ∀ (lines : List String) (st : AnalysisResult α),
      getCount (List.foldl (processLine caps n) st lines).word_freq w
        = getCount st.word_freq w
          + (lines.map (fun l => (lineWords caps l).count w)).sum := by
  intro lines
  induction lines with
  | nil => intro st; simp
  | cons l ls ih =>
    intro st
    have h1 : List.foldl (processLine caps n) st (l :: ls)
        = List.foldl (processLine caps n) (processLine caps n st l) ls := rfl
    have h2 : (processLine caps n st l).word_freq
        = counterUpdate st.word_freq (lineWords caps l) := rfl
    rw [h1, ih, h2, getCount_counterUpdate]
    simp only [List.map_cons, List.sum_cons]
    rw [count_eq_countP_deq]
    omega

theorem loop_ngram {α : Type} (caps : Caps α) (n : Nat) (g : List String) :
    ∀ (lines : List String) (st : AnalysisResult α),
      getCount (List.foldl (processLine caps n) st lines).ngram_freq g
        = getCount st.ngram_freq g
          + (lines.map (fun l => (lineNgrams caps n l).count g)).sum := by
  intro lines
  induction lines with
  | nil => intro st; simp
  | cons l ls ih =>
    intro st
    have h1 : List.foldl (processLine caps n) st (l :: ls)
        = List.foldl (processLine caps n) (processLine caps n st l) ls := rfl
    have h2 : (processLine caps n st l).ngram_freq
        = counterUpdate st.ngram_freq (lineNgrams caps n l) := rfl
    rw [h1, ih, h2, getCount_counterUpdate]
    simp only [List.map_cons, List.sum_cons]
    rw [count_eq_countP_deq]
    omega

theorem loop_entity {α : Type} (caps : Caps α) (n : Nat) (e : String) :
    ∀ (lines : List String) (st : AnalysisResult α),
      getCount (List.foldl (processLine caps n) st lines).entity_freq e
        = getCount st.entity_freq e
          + (lines.map (fun l => (caps.entities (lineText l)).count e)).sum := by
  intro lines
  induction lines with
  | nil => intro st; simp
  | cons l ls ih =>
    intro st
    have h1 : List.foldl (processLine caps n) st (l :: ls)
        = List.foldl (processLine caps n) (processLine caps n st l) ls := rfl
    have h2 : (processLine caps n st l).entity_freq
        = counterUpdate st.entity_freq (caps.entities (lineText l)) := rfl
    rw [h1, ih, h2, getCount_counterUpdate]
    simp only [List.map_cons, List.sum_cons]
    rw [count_eq_countP_deq]
    omega

theorem loop_question {α : Type} (caps : Caps α) (n : Nat) (q : String) :
    ∀ (lines : List String) (st : AnalysisResult α),
      getCount (List.foldl (processLine caps n) st lines).question_freq q
        = getCount st.question_freq q
          + lines.countP (fun l => lineText l == q && pyIn "?" (lineText l)) := by
  intro lines
  induction lines with
  | nil => intro st; simp
  | cons l ls ih =>
    intro st
    have h1 : List.foldl (processLine caps n) st (l :: ls)
        = List.foldl (processLine caps n) (processLine caps n st l) ls := rfl
    have h2 : (processLine caps n st l).question_freq
        = counterUpdate st.question_freq
            (if pyIn "?" (lineText l) then [lineText l] else []) := rfl
    have hcnt : (if pyIn "?" (lineText l) = true then [lineText l] else []).countP
          (fun x => decide (x = q))
        = if (lineText l == q && pyIn "?" (lineText l)) = true then 1 else 0 := by
      by_cases hq : pyIn "?" (lineText l)
      · by_cases ht : lineText l = q
        · subst ht; simp [hq]
        · simp [hq, ht, beq_false_of_ne ht]
      · simp [hq]
    rw [h1, ih, h2, getCount_counterUpdate, hcnt, List.countP_cons]
    omega

theorem loop_resolutions {α : Type} (caps : Caps α) (n : Nat) (s : String) :
    ∀ (lines : List String) (st : AnalysisResult α),
      getCount (List.foldl (processLine caps n) st lines).resolutions s
        = getCount st.resolutions s
          + lines.countP (fun l => lineText l == s && resolutionHit l) := by
  intro lines
  induction lines with
  | nil => intro st; simp
  | cons l ls ih =>
    intro st
    have h1 : List.foldl (processLine caps n) st (l :: ls)
        = List.foldl (processLine caps n) (processLine caps n st l) ls := rfl
    have h2 : (processLine caps n st l).resolutions
        = if resolutionHit l then counterUpdate st.resolutions [lineText l]
          else st.resolutions := rfl
    have hres : getCount
          (if resolutionHit l = true then counterUpdate st.resolutions [lineText l]
            else st.resolutions) s
        = getCount st.resolutions s
          + if (lineText l == s && resolutionHit l) = true then 1 else 0 := by
      by_cases hr : resolutionHit l
      · by_cases ht : lineText l = s
        · subst ht; simp [hr, getCount_counterUpdate]
        · simp [hr, ht, getCount_counterUpdate, beq_false_of_ne ht]
      · simp [hr]
    rw [h1, ih, h2, hres, List.countP_cons]
    omega

theorem loop_series {α : Type} (caps : Caps α) (n : Nat) :
    ∀ (lines : List String) (st : AnalysisResult α),
      (List.foldl (processLine caps n) st lines).sentiment_time_series
        = st.sentiment_time_series ++ lines.filterMap (seriesEntry caps) := by
  intro lines
  induction lines with
  | nil => intro st; simp
  | cons l ls ih =>
    intro st
    have h1 : List.foldl (processLine caps n) st (l :: ls)
        = List.foldl (processLine caps n) (processLine caps n st l) ls := rfl
    have h2 : (processLine caps n st l).sentiment_time_series
        = st.sentiment_time_series ++ (seriesEntry caps l).toList := rfl
    rw [h1, ih, h2, List.filterMap_cons]
    cases hse : seriesEntry caps l <;> simp

theorem loop_categories {α : Type} (caps : Caps α) (n : Nat) (c : String)
    (hc : ∀ text, getCount (categorize_issues text issue_keywords) c
      = if catHit c text then 1 else 0) :
    ∀ (lines : List String) (st : AnalysisResult α),
      getCount (List.foldl (processLine caps n) st lines).issue_categories c
        = getCount st.issue_categories c
          + lines.countP (fun l => catHit c (lineText l)) := by
  intro lines
  induction lines with
  | nil => intro st; simp
  | cons l ls ih =>
    intro st
    have h1 : List.foldl (processLine caps n) st (l :: ls)
        = List.foldl (processLine caps n) (processLine caps n st l) ls := rfl
    have h2 : (processLine caps n st l).issue_categories
        = counterMerge st.issue_categories
            (categorize_issues (lineText l) issue_keywords) := rfl
    rw [h1, ih, h2, getCount_counterMerge, sumCounts_categorize, hc, List.countP_cons]
    by_cases hcat : catHit c (lineText l)
    · simp [hcat]; omega
    · simp [hcat]

theorem length_filterMap_eq_countP {β γ : Type} (f : β → Option γ) :
    ∀ (l : List β), (l.filterMap f).length = l.countP (fun x => (f x).isSome) := by
  intro l
  induction l with
  | nil => rfl
  | cons x xs ih =>
    rw [List.filterMap_cons, List.countP_cons]
    cases hx : f x <;> simp [hx, ih]

theorem seriesEntry_isSome {α : Type} (caps : Caps α) (l : String) :
    (seriesEntry caps l).isSome = ((parse_line l).1).isSome := by
  unfold seriesEntry
  cases (parse_line l).1 <;> rfl

theorem take_decomp {β : Type} (l : List β) {k k' : Nat} (h : k ≤ k') :
    l.take k' = l.take k ++ (l.take k').drop k := by
  conv_lhs => rw [← List.take_append_drop k (l.take k')]
  rw [List.take_take, min_eq_left h]

/-! ## Claim theorems -/

/-- C7.  For every input, the sentiment time series returned by
`analyze_text` consists of exactly one entry per line whose timestamp parses,
in file order, pairing the ISO-8601 rendering of the timestamp with the
line's compound score; its length is the number of timestamp-bearing lines;
and every line — with or without a timestamp — contributes to all the other
aggregates (their counts are sums/counts over all lines, independent of
timestamp presence): word, n-gram, entity, question and resolution tables
and the three issue-category tallies. -/
theorem claim_C7 {α : Type} (caps : Caps α) (lines : List String) (n : Nat) :
    analyze_text caps (.ok lines) n = .ok (some (analyzeLines caps n lines)) ∧
    (analyzeLines caps n lines).sentiment_time_series
      = lines.filterMap (seriesEntry caps) ∧
    (analyzeLines caps n lines).sentiment_time_series.length
      = lines.countP (fun l => ((parse_line l).1).isSome) ∧
    (∀ w, getCount (analyzeLines caps n lines).word_freq w
      = (lines.map (fun l => (lineWords caps l).count w)).sum) ∧
    (∀ g, getCount (analyzeLines caps n lines).ngram_freq g
      = (lines.map (fun l => (lineNgrams caps n l).count g)).sum) ∧
    (∀ e, getCount (analyzeLines caps n lines).entity_freq e
      = (lines.map (fun l => (caps.entities (lineText l)).count e)).sum) ∧
    (∀ q, getCount (analyzeLines caps n lines).question_freq q
      = lines.countP (fun l => lineText l == q && pyIn "?" (lineText l))) ∧
    (∀ s, getCount (analyzeLines caps n lines).resolutions s
      = lines.countP (fun l => lineText l == s && resolutionHit l)) ∧
    (getCount (analyzeLines caps n lines).issue_categories "billing"
      = lines.countP (fun l => catHit "billing" (lineText l))) ∧
    (getCount (analyzeLines caps n lines).issue_categories "technical"
      = lines.countP (fun l => catHit "technical" (lineText l))) ∧
    (getCount (analyzeLines caps n lines).issue_categories "support"
      = lines.countP (fun l => catHit "support" (lineText l))) := by
  have hser : (analyzeLines caps n lines).sentiment_time_series
      = lines.filterMap (seriesEntry caps) := by
    simpa [analyzeLines, initResult] using loop_series caps n lines (initResult α)
  refine ⟨rfl, hser, ?_, ?_, ?_, ?_, ?_, ?_, ?_, ?_, ?_⟩
  · rw [hser, length_filterMap_eq_countP]
    exact List.countP_congr (fun l _ => by rw [seriesEntry_isSome])
  · intro w
    simpa [analyzeLines, initResult, getCount] using
      loop_word caps n w lines (initResult α)
  · intro g
    simpa [analyzeLines, initResult, getCount] using
      loop_ngram caps n g lines (initResult α)
  · intro e
    simpa [analyzeLines, initResult, getCount] using
      loop_entity caps n e lines (initResult α)
  · intro q
    simpa [analyzeLines, initResult, getCount] using
      loop_question caps n q lines (initResult α)
  · intro s
    simpa [analyzeLines, initResult, getCount] using
      loop_resolutions caps n s lines (initResult α)
  · simpa [analyzeLines, initResult, getCount] using
      loop_categories caps n "billing" (fun t => (getCount_categorize t).1)
        lines (initResult α)
  · simpa [analyzeLines, initResult, getCount] using
      loop_categories caps n "technical" (fun t => (getCount_categorize t).2.1)
        lines (initResult α)
  · simpa [analyzeLines, initResult, getCount] using
      loop_categories caps n "support" (fun t => (getCount_categorize t).2.2)
        lines (initResult α)

/-- C8.  For every line text and each built-in category, `categorize_issues`
increments that category's tally by exactly 1 when the text contains at least
one of the category's keywords as a case-sensitive substring (even when
several keywords match), and by 0 otherwise; the three categories are
evaluated independently, so a line may increment zero, one, or several. -/
theorem claim_C8 (text : String) :
    (getCount (categorize_issues text issue_keywords) "billing"
      = if ["invoice", "billing", "charge", "payment"].any (fun kw => pyIn kw text)
        then 1 else 0) ∧
    (getCount (categorize_issues text issue_keywords) "technical"
      = if ["error", "problem", "bug", "issue"].any (fun kw => pyIn kw text)
        then 1 else 0) ∧
    (getCount (categorize_issues text issue_keywords) "support"
      = if ["help", "support", "service", "assistance"].any (fun kw => pyIn kw text)
        then 1 else 0) :=
  getCount_categorize text

/-- C9.  At every point of a run (after any prefix of the input lines), each
count in each of the five frequency tables equals the number of contributing
occurrences processed so far — token/n-gram/entity occurrences, or lines
matching the question/resolution trigger with that exact text — and counts
never decrease as more lines are processed.  (Counts live in `Nat`, so they
are non-negative by construction.) -/
theorem claim_C9 {α : Type} (caps : Caps α) (n : Nat) (lines : List String)
    (k k' : Nat) (h : k ≤ k') :
    (∀ w, getCount (analyzeLines caps n (lines.take k)).word_freq w
      = ((lines.take k).map (fun l => (lineWords caps l).count w)).sum) ∧
    (∀ g, getCount (analyzeLines caps n (lines.take k)).ngram_freq g
      = ((lines.take k).map (fun l => (lineNgrams caps n l).count g)).sum) ∧
    (∀ e, getCount (analyzeLines caps n (lines.take k)).entity_freq e
      = ((lines.take k).map (fun l => (caps.entities (lineText l)).count e)).sum) ∧
    (∀ q, getCount (analyzeLines caps n (lines.take k)).question_freq q
      = (lines.take k).countP (fun l => lineText l == q && pyIn "?" (lineText l))) ∧
    (∀ s, getCount (analyzeLines caps n (lines.take k)).resolutions s
      = (lines.take k).countP (fun l => lineText l == s && resolutionHit l)) ∧
    (∀ w, getCount (analyzeLines caps n (lines.take k)).word_freq w
      ≤ getCount (analyzeLines caps n (lines.take k')).word_freq w) ∧
    (∀ g, getCount (analyzeLines caps n (lines.take k)).ngram_freq g
      ≤ getCount (analyzeLines caps n (lines.take k')).ngram_freq g) ∧
    (∀ e, getCount (analyzeLines caps n (lines.take k)).entity_freq e
      ≤ getCount (analyzeLines caps n (lines.take k')).entity_freq e) ∧
    (∀ q, getCount (analyzeLines caps n (lines.take k)).question_freq q
      ≤ getCount (analyzeLines caps n (lines.take k')).question_freq q) ∧
    (∀ s, getCount (analyzeLines caps n (lines.take k)).resolutions s
      ≤ getCount (analyzeLines caps n (lines.take k')).resolutions s) := by
  have hw : ∀ (m : Nat) (w : String),
      getCount (analyzeLines caps n (lines.take m)).word_freq w
        = ((lines.take m).map (fun l => (lineWords caps l).count w)).sum := by
    intro m w
    simpa [analyzeLines, initResult, getCount] using
      loop_word caps n w (lines.take m) (initResult α)
  have hg : ∀ (m : Nat) (g : List String),
      getCount (analyzeLines caps n (lines.take m)).ngram_freq g
        = ((lines.take m).map (fun l => (lineNgrams caps n l).count g)).sum := by
    intro m g
    simpa [analyzeLines, initResult, getCount] using
      loop_ngram caps n g (lines.take m) (initResult α)
  have he : ∀ (m : Nat) (e : String),
      getCount (analyzeLines caps n (lines.take m)).entity_freq e
        = ((lines.take m).map (fun l => (caps.entities (lineText l)).count e)).sum := by
    intro m e
    simpa [analyzeLines, initResult, getCount] using
      loop_entity caps n e (lines.take m) (initResult α)
  have hq : ∀ (m : Nat) (q : String),
      getCount (analyzeLines caps n (lines.take m)).question_freq q
        = (lines.take m).countP (fun l => lineText l == q && pyIn "?" (lineText l)) := by
    intro m q
    simpa [analyzeLines, initResult, getCount] using
      loop_question caps n q (lines.take m) (initResult α)
  have hs : ∀ (m : Nat) (s : String),
      getCount (analyzeLines caps n (lines.take m)).resolutions s
        = (lines.take m).countP (fun l => lineText l == s && resolutionHit l) := by
    intro m s
    simpa [analyzeLines, initResult, getCount] using
      loop_resolutions caps n s (lines.take m) (initResult α)
  refine ⟨hw k, hg k, he k, hq k, hs k, ?_, ?_, ?_, ?_, ?_⟩
  · intro w
    rw [hw k w, hw k' w, take_decomp lines h, List.map_append, List.sum_append]
    exact Nat.le_add_right _ _
  · intro g
    rw [hg k g, hg k' g, take_decomp lines h, List.map_append, List.sum_append]
    exact Nat.le_add_right _ _
  · intro e
    rw [he k e, he k' e, take_decomp lines h, List.map_append, List.sum_append]
    exact Nat.le_add_right _ _
  · intro q
    rw [hq k q, hq k' q, take_decomp lines h, List.countP_append]
    exact Nat.le_add_right _ _
  · intro s
    rw [hs k s, hs k' s, take_decomp lines h, List.countP_append]
    exact Nat.le_add_right _ _

/-- C9 witness: the hypothesis `1 ≤ 2` holds and the theorem applies at a
concrete run. -/
theorem claim_C9_witness :
    1 ≤ 2 ∧ (∀ w, getCount (analyzeLines capsW 2 (linesW.take 1)).word_freq w
      = ((linesW.take 1).map (fun l => (lineWords capsW l).count w)).sum) :=
  ⟨by decide, (claim_C9 capsW 2 linesW 1 2 (by decide)).1⟩

/-! ## Stability of the descending insertion sort behind `most_common` -/

theorem filter_orderedInsert {K : Type} (v : Nat) (a : K × Nat) (l : List (K × Nat)) :
    (List.orderedInsert byCount a l).filter (fun e => e.2 == v)
      = if a.2 == v then a :: l.filter (fun e => e.2 == v)
        else l.filter (fun e => e.2 == v) := by
  induction l with
  | nil =>
    by_cases hpa : (a.2 == v) <;> simp [List.orderedInsert, List.filter, hpa]
  | cons b t ih =>
    by_cases hab : byCount a b
    · rw [List.orderedInsert, if_pos hab]
      by_cases hpa : (a.2 == v) <;> simp [List.filter_cons, hpa]
    · rw [List.orderedInsert, if_neg hab]
      have hlt : a.2 < b.2 := Nat.lt_of_not_le hab
      by_cases hpa : (a.2 == v)
      · have hav : a.2 = v := by simpa using hpa
        have hbv : (b.2 == v) = false := beq_false_of_ne (by omega)
        simp [List.filter_cons, hbv, ih, hpa]
      · simp [List.filter_cons, ih, hpa]

theorem filter_insertionSort {K : Type} (v : Nat) (l : List (K × Nat)) :
    (List.insertionSort byCount l).filter (fun e => e.2 == v)
      = l.filter (fun e => e.2 == v) := by
  induction l with
  | nil => rfl
  | cons b t ih =>
    simp only [List.insertionSort]
    rw [filter_orderedInsert]
    by_cases hb : (b.2 == v) <;> simp [hb, ih, List.filter_cons]

theorem mostCommon_topK {K : Type} [DecidableEq K] (l : List (K × Nat)) (n : Nat) :
    TopKSpec l (mostCommon l n) n := by
  have hperm := List.perm_insertionSort byCount l
  have hsorted := List.sorted_insertionSort byCount l
  show TopKSpec l ((List.insertionSort byCount l).take n) n
  refine ⟨?_, ?_, (List.insertionSort byCount l).drop n, ?_, ?_, ?_⟩
  · rw [List.length_take, hperm.length_eq]
  · exact hsorted.sublist (List.take_sublist n _)
  · rw [List.take_append_drop]
    exact hperm.symm
  · have hp : List.Pairwise byCount
        ((List.insertionSort byCount l).take n ++ (List.insertionSort byCount l).drop n) := by
      rw [List.take_append_drop]; exact hsorted
    exact fun e he f hf => (List.pairwise_append.1 hp).2.2 e he f hf
  · intro v
    rw [List.take_append_drop]
    exact filter_insertionSort v l

/-! ## Python dict construction -/

theorem dictInsert_notMem {K V : Type} [DecidableEq K] (l : List (K × V)) (k : K)
    (v : V) (h : ¬ k ∈ l.map Prod.fst) : dictInsert l k v = l ++ [(k, v)] := by
  induction l with
  | nil => rfl
  | cons e t ih =>
    have h1 : ¬ e.1 = k := fun hh => h (by simp [hh])
    have h2 : ¬ k ∈ t.map Prod.fst := fun hm => h (by simp [hm])
    simp [dictInsert, h1, ih h2]

theorem pyDict_aux {K V : Type} [DecidableEq K] :
    ∀ (l acc : List (K × V)),
      (∀ e, e ∈ l → ¬ e.1 ∈ acc.map Prod.fst) → (l.map Prod.fst).Nodup →
      l.foldl (fun a e => dictInsert a e.1 e.2) acc = acc ++ l := by
  intro l
  induction l with
  | nil => intro acc _ _; simp
  | cons e t ih =>
    intro acc hdisj hnd
    have hmem : ¬ e.1 ∈ acc.map Prod.fst := hdisj e (by simp)
    have hhead : ¬ e.1 ∈ t.map Prod.fst := by
      have := hnd
      simp only [List.map_cons, List.nodup_cons] at this
      exact this.1
    have step : (e :: t).foldl (fun a x => dictInsert a x.1 x.2) acc
        = t.foldl (fun a x => dictInsert a x.1 x.2) (dictInsert acc e.1 e.2) := rfl
    rw [step, dictInsert_notMem acc e.1 e.2 hmem,
      ih (acc ++ [(e.1, e.2)]) ?_ ?_]
    · simp
    · intro x hx
      have hxa : ¬ x.1 ∈ acc.map Prod.fst := hdisj x (by simp [hx])
      have hxe : ¬ x.1 = e.1 := by
        intro hh
        exact hhead (hh ▸ List.mem_map_of_mem Prod.fst hx)
      simp [hxa, hxe]
    · simp only [List.map_cons, List.nodup_cons] at hnd
      exact hnd.2

theorem pyDict_eq_self {K V : Type} [DecidableEq K] (l : List (K × V))
    (h : (l.map Prod.fst).Nodup) : pyDict l = l := by
  simpa [pyDict] using pyDict_aux l [] (fun e _ => by simp) h

theorem mostCommon_keys_nodup {K : Type} [DecidableEq K] (l : List (K × Nat))
    (n : Nat) (h : (l.map Prod.fst).Nodup) :
    ((mostCommon l n).map Prod.fst).Nodup := by
  have hperm : List.Perm ((List.insertionSort byCount l).map Prod.fst)
      (l.map Prod.fst) :=
    (List.perm_insertionSort byCount l).map Prod.fst
  have hnd : ((List.insertionSort byCount l).map Prod.fst).Nodup := hperm.symm.nodup h
  exact hnd.sublist ((List.take_sublist n _).map Prod.fst)

/-- C1.  For every frequency table of the result and every requested count K,
the exported mapping is exactly `most_common(K)`: it has `min K (number of
distinct keys)` entries, in non-increasing count order, consists of K
highest-count entries (every kept count is at least every dropped count), and
breaks ties between equal counts stably by first-seen (insertion) order; the
n-gram mapping is the same list with keys joined by underscores (the stated
injectivity hypothesis records that the underscore-joined keys stay distinct,
which holds for the equal-width, underscore-free n-grams the pipeline
produces, and without which a Python dict would collapse entries). -/
theorem claim_C1 {α : Type} (data : AnalysisResult α) (K : Nat)
    (hw : (data.word_freq.map Prod.fst).Nodup)
    (hn : (data.ngram_freq.map Prod.fst).Nodup)
    (he : (data.entity_freq.map Prod.fst).Nodup)
    (hq : (data.question_freq.map Prod.fst).Nodup)
    (hr : (data.resolutions.map Prod.fst).Nodup)
    (hinj : ((mostCommon data.ngram_freq K).map
      (fun e => ngram_to_string e.1)).Nodup) :
    ((limitedData data K).word_freq = mostCommon data.word_freq K ∧
      TopKSpec data.word_freq (mostCommon data.word_freq K) K) ∧
    ((limitedData data K).ngram_freq
        = (mostCommon data.ngram_freq K).map (fun e => (ngram_to_string e.1, e.2)) ∧
      TopKSpec data.ngram_freq (mostCommon data.ngram_freq K) K) ∧
    ((limitedData data K).entity_freq = mostCommon data.entity_freq K ∧
      TopKSpec data.entity_freq (mostCommon data.entity_freq K) K) ∧
    ((limitedData data K).question_freq = mostCommon data.question_freq K ∧
      TopKSpec data.question_freq (mostCommon data.question_freq K) K) ∧
    ((limitedData data K).resolutions = mostCommon data.resolutions K ∧
      TopKSpec data.resolutions (mostCommon data.resolutions K) K) := by
  have hng : (((mostCommon data.ngram_freq K).map
      (fun e => (ngram_to_string e.1, e.2))).map Prod.fst).Nodup := by
    rw [List.map_map]
    exact hinj
  exact ⟨⟨pyDict_eq_self _ (mostCommon_keys_nodup _ K hw), mostCommon_topK _ K⟩,
    ⟨pyDict_eq_self _ hng, mostCommon_topK _ K⟩,
    ⟨pyDict_eq_self _ (mostCommon_keys_nodup _ K he), mostCommon_topK _ K⟩,
    ⟨pyDict_eq_self _ (mostCommon_keys_nodup _ K hq), mostCommon_topK _ K⟩,
    ⟨pyDict_eq_self _ (mostCommon_keys_nodup _ K hr), mostCommon_topK _ K⟩⟩

/-- C1 witness: the key-distinctness hypotheses hold at a concrete result and
K = 1, and the theorem applies there. -/
theorem claim_C1_witness :
    ((dataW.word_freq.map Prod.fst).Nodup ∧
      (dataW.ngram_freq.map Prod.fst).Nodup ∧
      (dataW.entity_freq.map Prod.fst).Nodup ∧
      (dataW.question_freq.map Prod.fst).Nodup ∧
      (dataW.resolutions.map Prod.fst).Nodup ∧
      ((mostCommon dataW.ngram_freq 1).map (fun e => ngram_to_string e.1)).Nodup) ∧
    ((limitedData dataW 1).word_freq = mostCommon dataW.word_freq 1 ∧
      TopKSpec dataW.word_freq (mostCommon dataW.word_freq 1) 1) :=
  ⟨⟨by decide, by decide, by decide, by decide, by decide, by decide⟩,
    (claim_C1 dataW 1 (by decide) (by decide) (by decide) (by decide) (by decide)
      (by decide)).1⟩

/-- C10.  Exporting with K = 0 serializes empty word/n-gram/entity/question/
resolution mappings and an empty sentiment series, while the issue-category
tally is serialized in full, untruncated. -/
theorem claim_C10 {α : Type} (data : AnalysisResult α)
    (hic : (data.issue_categories.map Prod.fst).Nodup) :
    (limitedData data 0).word_freq = [] ∧
    (limitedData data 0).ngram_freq = [] ∧
    (limitedData data 0).entity_freq = [] ∧
    (limitedData data 0).question_freq = [] ∧
    (limitedData data 0).sentiment_time_series = [] ∧
    (limitedData data 0).resolutions = [] ∧
    (limitedData data 0).issue_categories = data.issue_categories :=
  ⟨rfl, rfl, rfl, rfl, rfl, rfl, pyDict_eq_self _ hic⟩

/-- C10 witness: the key-distinctness hypothesis holds at a concrete result
and the theorem applies there. -/
theorem claim_C10_witness :
    (dataW.issue_categories.map Prod.fst).Nodup ∧
    (limitedData dataW 0).issue_categories = dataW.issue_categories :=
  ⟨by decide, (claim_C10 dataW (by decide)).2.2.2.2.2.2⟩

/-- C2 counterexample: for a file that exists but is unreadable (CPython
raises `PermissionError`, which the `try` block — it catches only
`FileNotFoundError` — does not handle), `analyze_text` propagates the
exception instead of returning the `None` signal. -/
theorem claim_C2_cx :
    analyze_text capsW (.error .permissionDenied) 2 = .error .permissionDenied ∧
    analyze_text capsW (.error .permissionDenied) 2 ≠ .ok none :=
  ⟨rfl, fun h => Except.noConfusion h⟩

/-- C2 amended: `analyze_text` returns the explicit no-result signal (`None`)
exactly when the file is missing (`FileNotFoundError`); a path that exists
but cannot be read (`PermissionError`) raises through to the caller.  In the
missing-file case no partial results are produced. -/
theorem claim_C2_amended {α : Type} (caps : Caps α) (n : Nat) :
    analyze_text caps (.error .fileNotFound) n = .ok none ∧
    analyze_text caps (.error .permissionDenied) n = .error .permissionDenied :=
  ⟨rfl, rfl⟩

/-- C3 counterexample: `generate_ngrams` returns a `zip` iterator, which is a
single-use stream: draining it once yields the two windows of
`["a", "b"]` with window size 1, draining it again yields nothing, so the two
iterations do not produce the same sequence. -/
theorem claim_C3_cx :
    (generate_ngrams ["a", "b"] 1).drain.1 = [["a"], ["b"]] ∧
    ((generate_ngrams ["a", "b"] 1).drain.2).drain.1 = [] ∧
    (generate_ngrams ["a", "b"] 1).drain.1
      ≠ ((generate_ngrams ["a", "b"] 1).drain.2).drain.1 := by
  decide

/-- C3 amended: `generate_ngrams` is a pure function (no side effects on its
arguments; the windows are determined by the inputs), but its result is a
single-use `zip` iterator, not a restartable collection: the first full
iteration yields the window sequence and a second iteration yields the empty
sequence, so the two passes agree only when there are no windows at all. -/
theorem claim_C3_amended (words : List String) (n : Nat) :
    (generate_ngrams words n).drain.1 = (generate_ngrams words n).elems ∧
    ((generate_ngrams words n).drain.2).drain.1 = [] ∧
    (((generate_ngrams words n).drain.2).drain.1 = (generate_ngrams words n).drain.1
      ↔ (generate_ngrams words n).elems = []) :=
  ⟨rfl, rfl, eq_comm⟩

/-! ## The sliding windows produced by `generate_ngrams` -/

theorem foldl_min_drop (words : List String) :
    ∀ (m : Nat),
      ((List.range m).map (fun i => words.drop (i + 1))).foldl
          (fun a t => min a t.length) words.length
        = words.length - m := by
  intro m
  induction m with
  | zero => simp
  | succ m ih =>
    rw [List.range_succ, List.map_append, List.foldl_append, ih]
    simp only [List.map_cons, List.map_nil, List.foldl_cons, List.foldl_nil,
      List.length_drop]
    omega

theorem getD_drop (l : List String) (i j : Nat) :
    (l.drop i).getD j "" = l.getD (i + j) "" := by
  by_cases hb : i + j < l.length
  · rw [List.getD_eq_getElem _ _ (by simp [List.length_drop]; omega),
      List.getD_eq_getElem _ _ hb, List.getElem_drop]
  · have h1 : l.length ≤ i + j := by omega
    have h2 : (l.drop i).length ≤ j := by simp [List.length_drop]; omega
    rw [List.getD_eq_default _ _ h2, List.getD_eq_default _ _ h1]

theorem range_map_getD (words : List String) (j : Nat) :
    ∀ (k : Nat), j + k ≤ words.length →
      (List.range k).map (fun i => words.getD (i + j) "") = (words.drop j).take k := by
  intro k
  induction k with
  | zero => intro _; simp
  | succ k ih =>
    intro h
    have hk : j + k < words.length := by omega
    rw [List.range_succ, List.map_append, ih (by omega), List.take_succ]
    simp only [List.map_cons, List.map_nil]
    rw [show k + j = j + k from Nat.add_comm k j,
      List.getD_eq_getElem _ _ hk, List.getElem?_drop,
      List.getElem?_eq_getElem hk]
    rfl

theorem window_eq (words : List String) (m j : Nat) (hj : j < words.length - m) :
    (words :: (List.range m).map (fun i => words.drop (i + 1))).map
        (fun t => t.getD j "")
      = (words.drop j).take (m + 1) := by
  have h1 : (words :: (List.range m).map (fun i => words.drop (i + 1))).map
        (fun t => t.getD j "")
      = (List.range (m + 1)).map (fun i => words.getD (i + j) "") := by
    rw [List.range_succ_eq_map, List.map_cons, List.map_cons, List.map_map,
      List.map_map]
    congr 1
    · rw [Nat.zero_add]
    · exact List.map_congr_left (fun i _ => getD_drop words (i + 1) j)
  rw [h1]
  exact range_map_getD words j (m + 1) (by omega)

theorem ngrams_elems (words : List String) (m : Nat) :
    (generate_ngrams words (m + 1)).elems
      = (List.range (words.length - m)).map (fun j => (words.drop j).take (m + 1)) := by
  have hlist : (List.range (m + 1)).map (fun i => words.drop i)
      = words :: (List.range m).map (fun i => words.drop (i + 1)) := by
    rw [List.range_succ_eq_map]
    simp [List.map_map, Function.comp]
  show pyZip ((List.range (m + 1)).map (fun i => words.drop i)) = _
  rw [hlist]
  show (List.range (((List.range m).map (fun i => words.drop (i + 1))).foldl
        (fun a t => min a t.length) words.length)).map
      (fun j => (words :: (List.range m).map (fun i => words.drop (i + 1))).map
        (fun t => t.getD j "")) = _
  rw [foldl_min_drop]
  exact List.map_congr_left (fun j hjmem =>
    window_eq words m j (List.mem_range.1 hjmem))

/-- C6.  For every token sequence of length L and window size N with N ≥ 1,
`generate_ngrams` produces exactly `max 0 (L - N + 1)` windows (in `Nat`
arithmetic, `L + 1 - N`), in original order: the j-th window is the length-N
slice of the tokens starting at offset j, for j from 0 through L - N. -/
theorem claim_C6 (words : List String) (n : Nat) (h : 1 ≤ n) :
    (generate_ngrams words n).elems.length = words.length + 1 - n ∧
    ∀ (j : Nat) (hj : j < (generate_ngrams words n).elems.length),
      (generate_ngrams words n).elems.get ⟨j, hj⟩ = (words.drop j).take n ∧
      ((generate_ngrams words n).elems.get ⟨j, hj⟩).length = n := by
  obtain ⟨m, rfl⟩ : ∃ m, n = m + 1 := ⟨n - 1, by omega⟩
  have helems := ngrams_elems words m
  constructor
  · rw [helems, List.length_map, List.length_range]
    omega
  · intro j hj
    have hjlt : j < words.length - m := by
      have := hj
      rw [helems, List.length_map, List.length_range] at this
      exact this
    have hget : (generate_ngrams words (m + 1)).elems.get ⟨j, hj⟩
        = (words.drop j).take (m + 1) := by
      have h1 : (generate_ngrams words (m + 1)).elems[j]?
          = some ((generate_ngrams words (m + 1)).elems.get ⟨j, hj⟩) := by
        rw [List.getElem?_eq_getElem hj, List.get_eq_getElem]
      have h2 : (generate_ngrams words (m + 1)).elems[j]?
          = some ((words.drop j).take (m + 1)) := by
        rw [helems]
        simp [List.getElem?_range, hjlt]
      exact Option.some.inj (h1.symm.trans h2)
    refine ⟨hget, ?_⟩
    rw [hget]
    simp [List.length_take, List.length_drop]
    omega

/-- C6 witness: the hypothesis 1 ≤ N holds at N = 2 and the theorem applies
to a concrete three-token sequence. -/
theorem claim_C6_witness :
    1 ≤ 2 ∧ (generate_ngrams ["a", "b", "c"] 2).elems.length = 3 + 1 - 2 :=
  ⟨by decide, (claim_C6 ["a", "b", "c"] 2 (by decide)).1⟩

/-! ## The export write path -/

theorem foldl_append_str :
    ∀ (l : List String) (s : String),
      l.foldl (fun a b => a ++ b) s = s ++ l.foldl (fun a b => a ++ b) "" := by
  intro l
  induction l with
  | nil => intro s; simp [String.append_empty]
  | cons x xs ih =>
    intro s
    simp only [List.foldl_cons]
    rw [ih (s ++ x), ih (("" : String) ++ x), String.empty_append,
      String.append_assoc]

theorem join_append (l1 l2 : List String) :
    String.join (l1 ++ l2) = String.join l1 ++ String.join l2 := by
  have hdef : ∀ l : List String,
      String.join l = l.foldl (fun a b => a ++ b) "" := fun l => rfl
  rw [hdef, hdef, hdef, List.foldl_append]
  exact foldl_append_str l2 _

set_option maxRecDepth 4000 in
/-- C4 counterexample: a run of `save_to_json` whose write fails after the
first `f.write` call (the chunk `{` that `json.dump` emits first) completes
with an error while the output path — already truncated by `open(..., "w")` —
is left holding exactly `{`: a non-empty half-written file that is neither
the intended document nor delimiter-balanced, so it cannot parse as JSON.
Nothing is buffered or written to a temporary file first. -/
theorem claim_C4_cx :
    save_to_json (fun z : Int => toString z) (initResult Int) "out/results.json" 10
        (some 1)
      = ⟨false, some "\x7b"⟩ ∧
    "\x7b" ≠ String.join (jsonChunks (fun z : Int => toString z)
      (limitedData (initResult Int) 10)) ∧
    jsonBalanced "\x7b" = false ∧
    jsonBalanced (String.join (jsonChunks (fun z : Int => toString z)
      (limitedData (initResult Int) 10))) = true := by
  refine ⟨by decide, by decide, by decide, by decide⟩

/-- C4 amended: `save_to_json` opens the destination itself in truncate mode
and streams the document incrementally (`json.dump` with an indent uses the
chunked pure-Python encoder); a failure after k successful writes leaves the
file holding exactly the concatenation of the first k chunks, a proper prefix
of the document, so a mid-write failure can leave a partial, non-JSON file;
no full buffering or write-to-temporary-then-rename is performed. -/
theorem claim_C4_amended {α : Type} (render : α → String) (data : AnalysisResult α)
    (p : String) (save_n k : Nat) (hdir : pyDirname p ≠ "")
    (hk : k < (jsonChunks render (limitedData data save_n)).length) :
    save_to_json render data p save_n (some k)
      = ⟨false, some (String.join
          ((jsonChunks render (limitedData data save_n)).take k))⟩ ∧
    String.join (jsonChunks render (limitedData data save_n))
      = String.join ((jsonChunks render (limitedData data save_n)).take k)
        ++ String.join ((jsonChunks render (limitedData data save_n)).drop k) := by
  constructor
  · simp [save_to_json, hdir, Nat.not_le.mpr hk]
  · conv_lhs =>
      rw [← List.take_append_drop k (jsonChunks render (limitedData data save_n))]
    exact join_append _ _

/-- C4 witness: the hypotheses (a path with a directory component, a failure
point inside the chunk stream) hold concretely and the theorem applies. -/
theorem claim_C4_witness :
    (pyDirname "out/results.json" ≠ "" ∧
      1 < (jsonChunks (fun z : Int => toString z)
        (limitedData (initResult Int) 0)).length) ∧
    save_to_json (fun z : Int => toString z) (initResult Int) "out/results.json" 0
        (some 1)
      = ⟨false, some (String.join ((jsonChunks (fun z : Int => toString z)
          (limitedData (initResult Int) 0)).take 1))⟩ :=
  ⟨⟨by decide, by decide⟩,
    (claim_C4_amended (fun z : Int => toString z) (initResult Int) "out/results.json"
      0 1 (by decide) (by decide)).1⟩

/-- C5 counterexample: for the bare filename `out.json` — a writable
destination with no directory component — `os.path.dirname` yields the empty
string and `os.makedirs("", exist_ok=True)` raises `FileNotFoundError`, so
the export fails (before the file is even created) even with no write fault
injected, contradicting the claim that every writable destination succeeds. -/
theorem claim_C5_cx :
    save_to_json (fun z : Int => toString z) (initResult Int) "out.json" 10 none
      = ⟨false, none⟩ := by
  decide

/-- C5 amended: `save_to_json` calls `os.makedirs` on the dirname of the
output path before writing; on a writable filesystem, a path with a non-empty
directory component has its directory created if missing and the export
succeeds, but for a path with no directory component (empty dirname)
`os.makedirs("")` raises `FileNotFoundError` and the export fails before the
output file is created or touched. -/
theorem claim_C5_amended {α : Type} (render : α → String) (data : AnalysisResult α)
    (p : String) (save_n : Nat) (failAfter : Option Nat) :
    (pyDirname p = "" →
      save_to_json render data p save_n failAfter = ⟨false, none⟩) ∧
    (pyDirname p ≠ "" →
      save_to_json render data p save_n none
        = ⟨true, some (String.join (jsonChunks render (limitedData data save_n)))⟩) := by
  constructor
  · intro hd; simp [save_to_json, hd]
  · intro hd; simp [save_to_json, hd]

/-- C5 witness: applying the amended theorem at a path with a directory
component, discharging its condition concretely: the export succeeds and
writes the whole document. -/
theorem claim_C5_witness :
    save_to_json (fun z : Int => toString z) (initResult Int) "o/out.json" 0 none
      = ⟨true, some (String.join (jsonChunks (fun z : Int => toString z)
          (limitedData (initResult Int) 0)))⟩ :=
  (claim_C5_amended (fun z : Int => toString z) (initResult Int) "o/out.json" 0
    none).2 (by decide)

end WordsToken
